import Mathlib

/-!
Shallow embedding of `src/rag_processor.py` (class `RAGProcessor`):
text chunking, the FAISS-backed vector store (add / search / persist /
restore), retrieval and answer composition.  Texts are modelled as
`List Char` (Python strings), embedding vectors as `List Int` (exact
stand-in for the float vectors; only ordering of squared distances
matters for the verified properties), and the two external boundaries
(sentence-transformers encoding, OpenAI completion) as explicit
function parameters with an explicit success flag / `Option` for their
failure (exception) paths.
-/

namespace RagProcessor

/-- Loop body of `_split_text_into_chunks` (lines 138-145), fuel-indexed
because the Python `while` loop need not terminate.  One unit of fuel is
one loop iteration; `none` means the fuel ran out (the loop was still
running).  `start2` is the Python `start += chunk_size - chunk_overlap`
(computed in `Int`, as Python ints can go negative) and the
`if start2 < 0 then start + size` branch is the
`if start < 0: start = end` guard (where `end = start + chunk_size`). -/
def splitGo (text : List Char) (size overlap : Nat) : Nat → Nat → Option (List (List Char))
  | 0, _ => none
  | fuel + 1, start =>
    if start < text.length then
      let chunk := (text.drop start).take size
      let start2 : Int := (start : Int) + (size : Int) - (overlap : Int)
      let start3 : Nat := if start2 < 0 then start + size else start2.toNat
      (splitGo text size overlap fuel start3).map (fun rest => chunk :: rest)
    else
      some []

/-- `_split_text_into_chunks(text, chunk_size, chunk_overlap)`
(lines 128-147): the `if not text: return []` guard followed by the
sliding-window loop, with explicit fuel. -/
def splitTextIntoChunks (text : List Char) (size overlap fuel : Nat) : Option (List (List Char)) :=
  if text = [] then some [] else splitGo text size overlap fuel 0

/-- Closed form of the chunking loop for the default parameters
`chunk_size=500, chunk_overlap=50` (step `450`), which provably make the
loop terminate: the window at `start`, then the windows from
`start + 450`. -/
def chunksFrom (text : List Char) (start : Nat) : List (List Char) :=
  if start < text.length then (text.drop start).take 500 :: chunksFrom text (start + 450)
  else []
termination_by text.length - start
decreasing_by simp_wf; omega

/-- `_split_text_into_chunks(text)` at the default parameters, as a total
function (justified by `splitTextIntoChunks_default_eq`). -/
def splitDefault (text : List Char) : List (List Char) :=
  if text = [] then [] else chunksFrom text 0

theorem chunksFrom_eq (text : List Char) (start : Nat) :
    chunksFrom text start =
      if start < text.length then (text.drop start).take 500 :: chunksFrom text (start + 450)
      else [] := by
  rw [chunksFrom]

theorem splitGo_default_eq_chunksFrom (text : List Char) :
    ∀ fuel start, text.length - start < fuel →
      splitGo text 500 50 fuel start = some (chunksFrom text start) := by
  intro fuel
  induction fuel with
  | zero => intro start h; omega
  | succ n ih =>
    intro start h
    rw [splitGo, chunksFrom_eq]
    by_cases hs : start < text.length
    · rw [if_pos hs, if_pos hs]
      simp only [Nat.cast_ofNat]
      rw [if_neg (by omega)]
      have h3 : ((start : Int) + 500 - 50).toNat = start + 450 := by omega
      rw [h3, ih (start + 450) (by omega)]
      rfl
    · rw [if_neg hs, if_neg hs]

theorem splitTextIntoChunks_default_eq (text : List Char) :
    splitTextIntoChunks text 500 50 (text.length + 1) = some (splitDefault text) := by
  unfold splitTextIntoChunks splitDefault
  by_cases h : text = []
  · rw [if_pos h, if_pos h]
  · rw [if_neg h, if_neg h, splitGo_default_eq_chunksFrom text (text.length + 1) 0 (by omega)]

theorem chunksFrom_length_iff (text : List Char) :
    ∀ i start, i < (chunksFrom text start).length ↔ start + 450 * i < text.length := by
  intro i
  induction i with
  | zero =>
    intro start
    rw [chunksFrom_eq]
    by_cases hs : start < text.length
    · rw [if_pos hs]; simpa using hs
    · rw [if_neg hs]; simpa using hs
  | succ j ih =>
    intro start
    rw [chunksFrom_eq]
    by_cases hs : start < text.length
    · rw [if_pos hs]
      simp only [List.length_cons, Nat.succ_lt_succ_iff]
      rw [ih (start + 450)]
      omega
    · rw [if_neg hs]
      simp only [List.length_nil]
      omega

theorem chunksFrom_getD (text : List Char) :
    ∀ i start, start + 450 * i < text.length →
      (chunksFrom text start).getD i [] = (text.drop (start + 450 * i)).take 500 := by
  intro i
  induction i with
  | zero =>
    intro start h
    have hs : start < text.length := by omega
    rw [chunksFrom_eq, if_pos hs]
    simp
  | succ j ih =>
    intro start h
    have hs : start < text.length := by omega
    rw [chunksFrom_eq, if_pos hs]
    have := ih (start + 450) (by omega)
    simpa [Nat.mul_succ, Nat.add_assoc, Nat.add_comm, Nat.add_left_comm] using this

/-- One entry of `self.doc_chunks` (line 48): the dict
`{'text': chunk_text, 'source': filename}`. -/
structure Chunk where
  text : List Char
  source : List Char
deriving DecidableEq, Repr

/-- The mutable store owned by `RAGProcessor`: the FAISS `IndexFlatL2`
(abstracted as its dimension `index.d` and its ordered vector rows, with
`ntotal = vectors.length`) together with the parallel `doc_chunks`
list. -/
structure VectorStore where
  dim : Nat
  vectors : List (List Int)
  chunks : List Chunk
deriving DecidableEq, Repr

/-- `_initialize_vector_store` (lines 78-84): a fresh `IndexFlatL2` of
the embedding dimension and an empty `doc_chunks` list. -/
def emptyStore (d : Nat) : VectorStore := ⟨d, [], []⟩

/-- `_save_vector_store` (lines 87-97).  Modelled from the spec: the
file writes (`faiss.write_index` and `pickle.dump`, external I/O not in
the repository) are modelled as producing the two persisted artifacts —
the index blob (its vector rows and dimension) and the chunk list —
which per the spec are "the two sequences serialized to durable storage
as two artifacts". -/
def saveVectorStore (s : VectorStore) :
    Option (List (List Int) × Nat) × Option (List Chunk) :=
  (some (s.vectors, s.dim), some s.chunks)

/-- `_load_vector_store` (lines 51-75), with the on-disk state given as
the two optional artifacts (`none` = file missing or unreadable, which
the `except` branch turns into a fresh store).  When both artifacts are
present the code only logs a warning on `ntotal != len(doc_chunks)` and
keeps the mismatched state; it re-initializes (empties both sequences)
only when `index.d != embedding_dim`. -/
def loadVectorStore (embeddingDim : Nat)
    (indexArtifact : Option (List (List Int) × Nat))
    (chunksArtifact : Option (List Chunk)) : VectorStore :=
  match indexArtifact, chunksArtifact with
  | some (vecs, d), some chs =>
    if d ≠ embeddingDim then emptyStore embeddingDim
    else ⟨d, vecs, chs⟩
  | _, _ => emptyStore embeddingDim

/-- The per-document inputs to `add_document` (lines 150-198) after the
external pieces are factored out: the basename of the file, the text
the extractor produced (empty on extraction failure or unsupported
type, which the code skips), and whether `embedding_model.encode`
succeeded (`False` = the `except` branch at line 183). -/
structure AddInputs where
  filename : List Char
  text : List Char
  embedOk : Bool

/-- `add_document` (lines 150-198) given the embedding boundary
`emb` (one vector per chunk text, as `encode` returns one row per
input).  Returns the updated store and whether vectors were actually
added (`_save_vector_store` is called exactly in that branch). -/
def addDocument (emb : List Char → List Int) (s : VectorStore) (inp : AddInputs) :
    VectorStore × Bool :=
  if inp.text = [] then (s, false)
  else
    let chunks := splitDefault inp.text
    if chunks = [] then (s, false)
    else if inp.embedOk then
      let chunkEmbeddings := chunks.map emb
      if 0 < chunkEmbeddings.length then
        (⟨s.dim, s.vectors ++ chunkEmbeddings,
          s.chunks ++ chunks.map (fun c => ⟨c, inp.filename⟩)⟩, true)
      else (s, false)
    else (s, false)

/-- A sequence of completed `add_document` calls starting from a fresh
empty store. -/
def applyAdds (emb : List Char → List Int) (d : Nat) (inps : List AddInputs) : VectorStore :=
  inps.foldl (fun s inp => (addDocument emb s inp).1) (emptyStore d)

/-- Squared Euclidean distance, the metric of `IndexFlatL2`. -/
def sqDist (q v : List Int) : Int :=
  ((q.zip v).map (fun p => (p.1 - p.2) * (p.1 - p.2))).sum

/-- Comparison used by the flat search: ascending squared distance,
ties broken by insertion order (earlier index wins). -/
def pairLe (a b : Nat × Int) : Bool :=
  decide (a.2 < b.2 ∨ (a.2 = b.2 ∧ a.1 ≤ b.1))

/-- `self.index.search(query_embedding, k)` for `IndexFlatL2`.
Modelled from the spec: FAISS's exact flat search is external library
code; per the spec it "returns up to `k` entries ordered by ascending
squared Euclidean distance to `query_vector`", `k` clamped to the store
size, "ties broken by insertion order (earlier-inserted wins)".  Result
entries are `(index, squared distance)` pairs. -/
def searchL2 (s : VectorStore) (q : List Int) (k : Nat) : List (Nat × Int) :=
  ((s.vectors.enum.map (fun p => (p.1, sqDist q p.2))).mergeSort pairLe).take k

/-- `retrieve_relevant_chunks` (lines 201-240): the `if not query`
guard, the query-embedding call (`embedOk = false` is its `except`
branch), the empty-index guard, then the FAISS search followed by the
bounds-checked lookup
`[self.doc_chunks[i] for i in indices[0] if 0 <= i < len(self.doc_chunks)]`. -/
def retrieveRelevantChunks (emb : List Char → List Int) (embedOk : Bool)
    (s : VectorStore) (query : List Char) (k : Nat) : List Chunk :=
  if query = [] then []
  else if !embedOk then []
  else if s.vectors.length = 0 then []
  else (searchL2 s (emb query) k).filterMap (fun p => s.chunks[p.1]?)

/-- Context construction in `answer_query` (lines 255-264): the fixed
fallback string when no chunks were retrieved, otherwise
`"\n\n".join(chunk texts)` in retrieval order. -/
def buildContext (relevantChunks : List Chunk) : List Char :=
  if relevantChunks = [] then
    "No relevant information found in the provided documents.".toList
  else
    List.intercalate "\n\n".toList (relevantChunks.map Chunk.text)

/-- Literal text of the prompt f-string (lines 270-283) before the
interpolated `{context}`. -/
def promptIntro : List Char :=
  ("\n        You are an assistant answering questions based ONLY on the provided context and some common knowledge.\n        Try very hard to answer only with context and inference upon context.\n        If the answer is not found by combination of context and inference and you had to instead rely on commond knowledge outside of it, say \"I could not find the answer in the provided documents, but I can answer from common knowledge:\" and proceed with answer.\n\n        Context:\n        ---\n        ").toList

/-- Literal prompt text between the interpolated context and the
interpolated query. -/
def promptMid : List Char :=
  ("\n        ---\n\n        Question: ").toList

/-- Literal prompt text after the interpolated query. -/
def promptTail : List Char :=
  ("\n\n        Answer:\n        ").toList

/-- The composed prompt of `answer_query`: the f-string is exactly the
concatenation of its literal pieces with `context` and `query`
spliced in. -/
def composePrompt (context query : List Char) : List Char :=
  promptIntro ++ context ++ promptMid ++ query ++ promptTail

/-- Python `str.strip()` applied to the completion content
(line 297). -/
def stripChars (l : List Char) : List Char :=
  ((l.dropWhile Char.isWhitespace).reverse.dropWhile Char.isWhitespace).reverse

/-- The fixed user-facing apology returned when the OpenAI call raises
(line 303). -/
def apologyMessage : List Char :=
  "Sorry, I encountered an error while trying to generate an answer.".toList

/-- `answer_query` (lines 243-303): retrieve with `k=5`, build the
context and prompt, call the completion boundary (`none` = the
`except` branch around the OpenAI call), strip the successful answer or
return the fixed apology. -/
def answerQuery (emb : List Char → List Int) (embedOk : Bool)
    (complete : List Char → Option (List Char))
    (s : VectorStore) (query : List Char) : List Char :=
  let relevantChunks := retrieveRelevantChunks emb embedOk s query 5
  let context := buildContext relevantChunks
  let prompt := composePrompt context query
  match complete prompt with
  | some response => stripChars response
  | none => apologyMessage

/-- The process state `add_document` / `retrieve_relevant_chunks` /
`answer_query` can read or write: the in-memory store plus the two
persisted artifacts on disk. -/
structure SystemState where
  store : VectorStore
  indexArtifact : Option (List (List Int) × Nat)
  chunksArtifact : Option (List Chunk)
deriving DecidableEq

/-- `add_document` as a state transformer: on a successful add, the
updated store is persisted (`_save_vector_store` at line 196); on every
other path neither the store nor the artifacts change. -/
def addOp (emb : List Char → List Int) (st : SystemState) (inp : AddInputs) : SystemState :=
  let r := addDocument emb st.store inp
  if r.2 then ⟨r.1, (saveVectorStore r.1).1, (saveVectorStore r.1).2⟩
  else ⟨r.1, st.indexArtifact, st.chunksArtifact⟩

/-- `retrieve_relevant_chunks` as a state transformer: the method only
reads `self.index` / `self.doc_chunks` and touches no file, so the
state passes through unchanged. -/
def retrieveOp (emb : List Char → List Int) (embedOk : Bool)
    (st : SystemState) (query : List Char) (k : Nat) : SystemState × List Chunk :=
  (st, retrieveRelevantChunks emb embedOk st.store query k)

/-- `answer_query` as a state transformer: read-only on the store and
the artifacts. -/
def answerOp (emb : List Char → List Int) (embedOk : Bool)
    (complete : List Char → Option (List Char))
    (st : SystemState) (query : List Char) : SystemState × List Char :=
  (st, answerQuery emb embedOk complete st.store query)

/-- The claim C4 formalization of "every pair of consecutive chunks
overlaps in exactly `overlap` characters": the part of a chunk shared
with the next window (everything past position `size - overlap`) has
exactly `overlap` characters. -/
def consecOverlapEq (size overlap : Nat) (l : List (List Char)) : Prop :=
  ∀ i, i + 1 < l.length → ((l.getD i []).drop (size - overlap)).length = overlap

theorem addDocument_vectors_map (emb : List Char → List Int) (s : VectorStore) (inp : AddInputs)
    (h : s.vectors = s.chunks.map (fun c => emb c.text)) :
    (addDocument emb s inp).1.vectors =
      (addDocument emb s inp).1.chunks.map (fun c => emb c.text) := by
  unfold addDocument
  by_cases h1 : inp.text = []
  · simp [h1, h]
  · by_cases h2 : splitDefault inp.text = []
    · simp [h1, h2, h]
    · by_cases h3 : inp.embedOk
      · have h4 : 0 < (splitDefault inp.text).length := List.length_pos.mpr h2
        simp [h1, h2, h3, h4, h, List.map_map, Function.comp_def]
      · simp [h1, h2, h3, h]

theorem foldl_addDocument_vectors_map (emb : List Char → List Int) (inps : List AddInputs) :
    ∀ s : VectorStore, s.vectors = s.chunks.map (fun c => emb c.text) →
      (inps.foldl (fun s inp => (addDocument emb s inp).1) s).vectors =
        (inps.foldl (fun s inp => (addDocument emb s inp).1) s).chunks.map
          (fun c => emb c.text) := by
  induction inps with
  | nil => intro s h; exact h
  | cons a t ih =>
    intro s h
    exact ih ((addDocument emb s a).1) (addDocument_vectors_map emb s a h)

theorem applyAdds_vectors_map (emb : List Char → List Int) (d : Nat) (inps : List AddInputs) :
    (applyAdds emb d inps).vectors =
      (applyAdds emb d inps).chunks.map (fun c => emb c.text) :=
  foldl_addDocument_vectors_map emb inps (emptyStore d) rfl

/-- Claim C1: after every completed sequence of `add_document` calls on
an initially empty store, the index holds exactly as many vectors as
there are chunk entries, and the vector at position `i` is the
embedding of the chunk text at position `i`. -/
theorem add_parallel_invariant (emb : List Char → List Int) (d : Nat) (inps : List AddInputs) :
    (applyAdds emb d inps).vectors.length = (applyAdds emb d inps).chunks.length ∧
    ∀ i : Nat, (applyAdds emb d inps).vectors[i]? =
      ((applyAdds emb d inps).chunks[i]?).map (fun c => emb c.text) := by
  constructor
  · rw [applyAdds_vectors_map emb d inps, List.length_map]
  · intro i
    rw [applyAdds_vectors_map emb d inps, List.getElem?_map]

/-- Claim C2, counterexample: restoring a store whose index artifact
holds 2 vectors (dimension matching) while the chunk artifact holds 1
chunk keeps the mismatched sequences instead of reinitializing empty
(the code only logs a warning at lines 62-64). -/
theorem load_mismatch_counterexample :
    (loadVectorStore 1 (some ([[0], [1]], 1)) (some [⟨['a'], ['f']⟩])).vectors.length = 2 ∧
    (loadVectorStore 1 (some ([[0], [1]], 1)) (some [⟨['a'], ['f']⟩])).chunks.length = 1 ∧
    loadVectorStore 1 (some ([[0], [1]], 1)) (some [⟨['a'], ['f']⟩]) ≠ emptyStore 1 := by
  refine ⟨rfl, rfl, ?_⟩
  decide

/-- Claim C2, amended: when both artifacts are present and the stored
dimension matches, restore keeps whatever the artifacts hold — a
vector-count/chunk-count mismatch is only logged, never repaired; the
store is reinitialized empty exactly when an artifact is missing or
the stored dimension differs from the expected one. -/
theorem load_mismatch_amended (dim d : Nat) (vecs : List (List Int)) (chs : List Chunk) :
    (loadVectorStore dim (some (vecs, dim)) (some chs) = ⟨dim, vecs, chs⟩) ∧
    (d ≠ dim → loadVectorStore dim (some (vecs, d)) (some chs) = emptyStore dim) ∧
    (loadVectorStore dim none (some chs) = emptyStore dim) ∧
    (loadVectorStore dim (some (vecs, d)) none = emptyStore dim) := by
  refine ⟨by simp [loadVectorStore], fun h => by simp [loadVectorStore, h], rfl, rfl⟩

theorem load_mismatch_amended_witness :
    loadVectorStore 1 (some ([[5]], 1)) (some []) = ⟨1, [[5]], []⟩ ∧
    loadVectorStore 1 (some ([[5]], 2)) (some []) = emptyStore 1 :=
  ⟨(load_mismatch_amended 1 2 [[5]] []).1,
   (load_mismatch_amended 1 2 [[5]] []).2.1 (by decide)⟩

theorem splitGo_one_one_stuck : ∀ fuel, splitGo ['a'] 1 1 fuel 0 = none := by
  intro fuel
  induction fuel with
  | zero => rfl
  | succ n ih =>
    rw [splitGo]
    simp [ih]

/-- Claim C3 (code bug): with `chunk_size = 1`, `chunk_overlap = 1` and
the one-character text `"a"`, the chunking loop never terminates — the
step `start += chunk_size - chunk_overlap` leaves `start = 0`, and the
`if start < 0` guard (meant, per its own comment, to prevent an
infinite loop when `overlap >= size`) never fires because `start` never
goes negative.  In the fuel model the loop exhausts every fuel
bound. -/
theorem split_overlap_eq_size_diverges :
    ∀ fuel, splitTextIntoChunks ['a'] 1 1 fuel = none := by
  intro fuel
  unfold splitTextIntoChunks
  rw [if_neg (by decide)]
  exact splitGo_one_one_stuck fuel

theorem loadVectorStore_saveVectorStore (t : VectorStore) :
    loadVectorStore t.dim (saveVectorStore t).1 (saveVectorStore t).2 = t := by
  obtain ⟨d, v, c⟩ := t
  simp [loadVectorStore, saveVectorStore]

/-- Claim C6: a completed `add_document`, followed by persisting both
artifacts and restoring them into a fresh store of the same dimension,
reproduces the ordered chunk sequence and the ordered vector sequence
exactly. -/
theorem add_persist_restore_roundtrip (emb : List Char → List Int)
    (s : VectorStore) (inp : AddInputs) :
    loadVectorStore (addDocument emb s inp).1.dim
      (saveVectorStore (addDocument emb s inp).1).1
      (saveVectorStore (addDocument emb s inp).1).2 = (addDocument emb s inp).1 :=
  loadVectorStore_saveVectorStore (addDocument emb s inp).1

/-- Claim C7: `retrieve_relevant_chunks` returns an empty list (without
raising) when the query is empty, when the query embedding fails, or
when the store is empty; otherwise it returns the chunks looked up from
the search results in nearest-first order, distances discarded. -/
theorem retrieve_guards (emb : List Char → List Int) (embedOk : Bool)
    (s : VectorStore) (query : List Char) (k : Nat) :
    (query = [] → retrieveRelevantChunks emb embedOk s query k = []) ∧
    (embedOk = false → retrieveRelevantChunks emb embedOk s query k = []) ∧
    (s.vectors.length = 0 → retrieveRelevantChunks emb embedOk s query k = []) ∧
    (query ≠ [] → embedOk = true → s.vectors.length ≠ 0 →
      retrieveRelevantChunks emb embedOk s query k =
        (searchL2 s (emb query) k).filterMap (fun p => s.chunks[p.1]?)) := by
  refine ⟨?_, ?_, ?_, ?_⟩
  · intro h; simp [retrieveRelevantChunks, h]
  · intro h; simp [retrieveRelevantChunks, h]
  · intro h; simp [retrieveRelevantChunks, h]
  · intro h1 h2 h3; simp [retrieveRelevantChunks, h1, h2, h3]

theorem retrieve_guards_witness :
    retrieveRelevantChunks (fun _ => [0]) true (emptyStore 1) [] 5 = [] :=
  (retrieve_guards (fun _ => [0]) true (emptyStore 1) [] 5).1 rfl

/-- Claim C8, counterexample: with an empty retrieved-chunk list the
context placed in the prompt is the code's fixed fallback string
`"No relevant information found in the provided documents."`, which is
not the sentinel `"no relevant information available"` the claim
names. -/
theorem context_sentinel_counterexample :
    buildContext [] = "No relevant information found in the provided documents.".toList ∧
    buildContext [] ≠ "no relevant information available".toList := by
  exact ⟨rfl, by decide⟩

/-- Claim C8, amended: when the retrieved chunk list is empty the
context embedded in the composed prompt is the fixed string
`"No relevant information found in the provided documents."` (not the
empty string); when it is non-empty, the context is the chunk texts
joined with a blank-line (`"\n\n"`) separator in retrieval order; and
the composed prompt embeds that context between its literal pieces. -/
theorem context_construction (relevantChunks : List Chunk) (query : List Char) :
    (relevantChunks = [] →
      buildContext relevantChunks =
        "No relevant information found in the provided documents.".toList) ∧
    (relevantChunks ≠ [] →
      buildContext relevantChunks =
        List.intercalate "\n\n".toList (relevantChunks.map Chunk.text)) ∧
    composePrompt (buildContext relevantChunks) query =
      promptIntro ++ buildContext relevantChunks ++ (promptMid ++ query ++ promptTail) := by
  refine ⟨fun h => by simp [buildContext, h],
          fun h => by simp [buildContext, h],
          by simp [composePrompt]⟩

theorem context_construction_witness :
    buildContext [] = "No relevant information found in the provided documents.".toList ∧
    buildContext [⟨['x'], ['s']⟩] = List.intercalate "\n\n".toList [['x']] :=
  ⟨(context_construction [] []).1 rfl,
   by simpa using (context_construction [⟨['x'], ['s']⟩] []).2.1 (by decide)⟩

/-- Claim C9: when the external completion call fails, `answer_query`
returns the fixed apology string
`"Sorry, I encountered an error while trying to generate an answer."`
— it is a total function and the raw exception is never part of the
returned text. -/
theorem completion_failure_apology (emb : List Char → List Int) (embedOk : Bool)
    (complete : List Char → Option (List Char)) (s : VectorStore) (query : List Char)
    (h : complete (composePrompt
        (buildContext (retrieveRelevantChunks emb embedOk s query 5)) query) = none) :
    answerQuery emb embedOk complete s query =
      "Sorry, I encountered an error while trying to generate an answer.".toList := by
  simp only [answerQuery, h]
  rfl

theorem completion_failure_apology_witness :
    answerQuery (fun _ => [0]) true (fun _ => none) (emptyStore 1) ['q'] =
      "Sorry, I encountered an error while trying to generate an answer.".toList :=
  completion_failure_apology (fun _ => [0]) true (fun _ => none) (emptyStore 1) ['q'] rfl

/-- Claim C10: the query-path operations leave the whole system state —
in-memory store and both persisted artifacts — unchanged, whether the
embedding and completion boundaries succeed or fail; only a successful
add persists. -/
theorem query_path_frame (emb : List Char → List Int) (embedOk : Bool)
    (complete : List Char → Option (List Char))
    (st : SystemState) (query : List Char) (k : Nat) :
    (retrieveOp emb embedOk st query k).1 = st ∧
    (answerOp emb embedOk complete st query).1 = st :=
  ⟨rfl, rfl⟩

theorem pairLe_trans (a b c : Nat × Int) (hab : pairLe a b) (hbc : pairLe b c) : pairLe a c := by
  simp only [pairLe, decide_eq_true_eq] at hab hbc ⊢
  omega

theorem pairLe_total (a b : Nat × Int) : pairLe a b || pairLe b a := by
  simp only [pairLe, Bool.or_eq_true, decide_eq_true_eq]
  omega

/-- Claim C5: on a store with at least `k ≥ 1` entries the flat search
returns exactly `k` results; with `0 < n < k` entries exactly `n`
(`k` clamped); on an empty store no results and no error; and the
results are in non-decreasing order of squared Euclidean distance. -/
theorem search_count_and_order (s : VectorStore) (q : List Int) (k : Nat) (_hk : 1 ≤ k) :
    (s.vectors.length = 0 → searchL2 s q k = []) ∧
    (k ≤ s.vectors.length → (searchL2 s q k).length = k) ∧
    (s.vectors.length < k → (searchL2 s q k).length = s.vectors.length) ∧
    List.Pairwise (fun a b : Nat × Int => a.2 ≤ b.2) (searchL2 s q k) := by
  have hlen : ((s.vectors.enum.map (fun p => (p.1, sqDist q p.2))).mergeSort pairLe).length
      = s.vectors.length := by
    rw [List.length_mergeSort, List.length_map, List.enum_length]
  refine ⟨?_, ?_, ?_, ?_⟩
  · intro h0
    have hnil : s.vectors = [] := List.length_eq_zero.mp h0
    simp [searchL2, hnil]
  · intro hkn
    unfold searchL2
    rw [List.length_take, hlen]
    omega
  · intro hnk
    unfold searchL2
    rw [List.length_take, hlen]
    omega
  · have hsorted :
        ((s.vectors.enum.map (fun p => (p.1, sqDist q p.2))).mergeSort pairLe).Pairwise
          (fun a b => pairLe a b) :=
      List.sorted_mergeSort pairLe_trans pairLe_total _
    have hsub : List.Sublist (searchL2 s q k)
        ((s.vectors.enum.map (fun p => (p.1, sqDist q p.2))).mergeSort pairLe) :=
      List.take_sublist _ _
    refine (hsorted.sublist hsub).imp ?_
    intro a b hab
    simp only [pairLe, decide_eq_true_eq] at hab
    omega

theorem search_count_and_order_witness :
    (searchL2 ⟨1, [[0], [3]], [⟨['a'], ['f']⟩, ⟨['b'], ['g']⟩]⟩ [1] 1).length = 1 :=
  (search_count_and_order ⟨1, [[0], [3]], [⟨['a'], ['f']⟩, ⟨['b'], ['g']⟩]⟩ [1] 1
    (by decide)).2.1 (by decide)

theorem chunksFrom_chunk_length_le (text : List Char) (start : Nat) (c : List Char)
    (hc : c ∈ chunksFrom text start) : c.length ≤ 500 := by
  obtain ⟨n, hn, hget⟩ := List.getElem_of_mem hc
  have hD : (chunksFrom text start).getD n [] = c := by
    rw [List.getD_eq_getElem?_getD, List.getElem?_eq_getElem hn, Option.getD_some, hget]
  have hlt : start + 450 * n < text.length := (chunksFrom_length_iff text n start).mp hn
  rw [chunksFrom_getD text n start hlt] at hD
  rw [← hD]
  exact List.length_take_le _ _

theorem chunksFrom_getD_zero (text : List Char) (i : Nat) (h : 450 * i < text.length) :
    (chunksFrom text 0).getD i [] = (text.drop (450 * i)).take 500 := by
  have h2 := chunksFrom_getD text i 0 (by omega)
  simpa using h2

set_option maxRecDepth 4000

/-- Claim C4, counterexample: on a 460-character text with the default
parameters the code produces the chunks `[text[0:500], text[450:460]]`
of lengths `[460, 10]`; the two consecutive chunks share only 10
characters, not the claimed exactly 50 — the first chunk of the pair is
already a short final-window-truncated chunk even though it is not the
final chunk. -/
theorem chunk_overlap_counterexample :
    ¬ consecOverlapEq 500 50
      ((splitTextIntoChunks (List.replicate 460 'a') 500 50 461).getD []) :=
  fun h => absurd (h 0 (by decide)) (by decide)

/-- Claim C4, amended: chunking with the default parameters
(`size=500`, `overlap=50`) yields a non-empty sequence iff the text is
non-empty; every chunk has length at most `size`; consecutive chunks
agree on their shared window (the part of a chunk past position
`size - overlap` is a prefix of the next chunk); that shared window has
exactly `overlap` characters for every consecutive pair except the
final pair, for which it has between 1 and `overlap` characters (fewer
than `overlap` exactly when the text ends before the penultimate window
fills). -/
theorem chunk_default_properties (text : List Char) (l : List (List Char))
    (h : splitTextIntoChunks text 500 50 (text.length + 1) = some l) :
    (l ≠ [] ↔ text ≠ []) ∧
    (∀ c ∈ l, c.length ≤ 500) ∧
    (∀ i, i + 1 < l.length →
      (l.getD i []).drop 450 = (l.getD (i + 1) []).take ((l.getD i []).length - 450)) ∧
    (∀ i, i + 2 < l.length → ((l.getD i []).drop 450).length = 50) ∧
    (∀ i, i + 1 < l.length →
      0 < ((l.getD i []).drop 450).length ∧ ((l.getD i []).drop 450).length ≤ 50) := by
  have hld : l = splitDefault text := by
    have h2 := splitTextIntoChunks_default_eq text
    rw [h] at h2
    exact Option.some.inj h2
  subst hld
  by_cases htext : text = []
  · subst htext
    simp [splitDefault]
  · have hsd : splitDefault text = chunksFrom text 0 := if_neg htext
    rw [hsd]
    have h0 : 0 < text.length := List.length_pos.mpr htext
    refine ⟨?_, ?_, ?_, ?_, ?_⟩
    · constructor
      · intro _; exact htext
      · intro _
        exact List.ne_nil_of_length_pos ((chunksFrom_length_iff text 0 0).mpr (by omega))
    · intro c hc
      exact chunksFrom_chunk_length_le text 0 c hc
    · intro i hi
      have hi1 : 450 * i < text.length := by
        have h3 := (chunksFrom_length_iff text i 0).mp (by omega)
        omega
      have hi2 : 450 * (i + 1) < text.length := by
        have h3 := (chunksFrom_length_iff text (i + 1) 0).mp hi
        omega
      rw [chunksFrom_getD_zero text i hi1, chunksFrom_getD_zero text (i + 1) hi2]
      rw [List.drop_take, List.drop_drop, List.take_take, List.length_take, List.length_drop]
      have hmul : 450 * (i + 1) = 450 * i + 450 := by ring
      rw [hmul]
      by_cases hcase : 500 ≤ text.length - 450 * i
      · have hm1 : min (min 500 (text.length - 450 * i) - 450) 500 = 50 := by omega
        rw [hm1]
      · have hm1 : min (min 500 (text.length - 450 * i) - 450) 500
            = text.length - 450 * i - 450 := by omega
        rw [hm1]
        have hBlen : (text.drop (450 * i + 450)).length = text.length - 450 * i - 450 := by
          rw [List.length_drop]
          omega
        rw [List.take_of_length_le (show (text.drop (450 * i + 450)).length ≤ 500 - 450 by
              rw [hBlen]; omega),
            List.take_of_length_le (show (text.drop (450 * i + 450)).length
              ≤ text.length - 450 * i - 450 by rw [hBlen])]
    · intro i hi
      have hi1 : 450 * i < text.length := by
        have h3 := (chunksFrom_length_iff text i 0).mp (by omega)
        omega
      have hi2 : 450 * (i + 2) < text.length := by
        have h3 := (chunksFrom_length_iff text (i + 2) 0).mp hi
        omega
      rw [chunksFrom_getD_zero text i hi1]
      rw [List.length_drop, List.length_take, List.length_drop]
      omega
    · intro i hi
      have hi1 : 450 * i < text.length := by
        have h3 := (chunksFrom_length_iff text i 0).mp (by omega)
        omega
      have hi2 : 450 * (i + 1) < text.length := by
        have h3 := (chunksFrom_length_iff text (i + 1) 0).mp hi
        omega
      rw [chunksFrom_getD_zero text i hi1]
      rw [List.length_drop, List.length_take, List.length_drop]
      omega

theorem chunk_default_properties_witness :
    (([['a']] : List (List Char)) ≠ [] ↔ (['a'] : List Char) ≠ []) :=
  (chunk_default_properties ['a'] [['a']] (by decide)).1

end RagProcessor
